import Mathlib

set_option maxHeartbeats 1000000

/-!
Shallow embedding of the pokedex trading-card REST backend: the data model
(users, cards, decks, deck-card associations), the repository layer
(prisma calls as pure state transformers), the validation service, the
HTTP controllers and the auth routes, translated from the TypeScript
source files. Machine numbers are modelled as Int (JS numbers on the
integer range used by the API), fallible code returns Except, and the
store is an explicit record of tables.
-/

/-! ## JavaScript string primitives -/

/-- Is the first list a leading segment of the second, char by char. -/
def listIsPre : List Char → List Char → Bool
  | [], _ => true
  | _ :: _, [] => false
  | a :: as, b :: bs => a == b && listIsPre as bs

/-- Occurrence of sub as a contiguous segment, at any position. -/
def listHasSub (sub : List Char) : List Char → Bool
  | [] => sub.isEmpty
  | c :: rest => listIsPre sub (c :: rest) || listHasSub sub rest

/-- JS String.prototype.includes(sub), case sensitive. -/
def strHasSub (s sub : String) : Bool := listHasSub sub.data s.data

/-- JS String.prototype.trim: drop whitespace from both ends. -/
def jsTrim (s : String) : String :=
  ⟨((s.data.dropWhile Char.isWhitespace).reverse.dropWhile Char.isWhitespace).reverse⟩

/-- JS falsiness of an optional string field of a JSON body:
undefined and the empty string are falsy. -/
def jsFalsy : Option String → Bool
  | none => true
  | some s => s == ""

/-- Value of a character as a digit in the given base, per JS parseInt
(48-57 are the codes of 0-9, 97-122 of a-z, 65-90 of A-Z). -/
def jsDigitVal (base : Nat) (c : Char) : Option Nat :=
  if 48 ≤ c.toNat && c.toNat ≤ 57 && c.toNat - 48 < base then some (c.toNat - 48)
  else if 97 ≤ c.toNat && c.toNat ≤ 122 && c.toNat - 87 < base then some (c.toNat - 87)
  else if 65 ≤ c.toNat && c.toNat ≤ 90 && c.toNat - 55 < base then some (c.toNat - 55)
  else none

/-- Accumulate the value of the longest leading run of digits; none when
no digit at all was consumed. -/
def takeDigitsVal (base : Nat) : List Char → Option Nat → Option Nat
  | [], acc => acc
  | c :: cs, acc =>
    match jsDigitVal base c with
    | some d => takeDigitsVal base cs (some (acc.getD 0 * base + d))
    | none => acc

/-- Does the list start with the given character. -/
def headIs (l : List Char) (c : Char) : Bool :=
  match l with
  | [] => false
  | x :: _ => x == c

/-- A leading 0x or 0X hexadecimal marker. -/
def hexMark (l : List Char) : Bool :=
  headIs l '0' && (headIs l.tail 'x' || headIs l.tail 'X')

/-- JS parseInt with no radix argument: skip leading whitespace, accept an
optional sign, treat a 0x or 0X prefix as hexadecimal, then read the
longest run of digits; none models NaN. -/
def jsParseInt (s : String) : Option Int :=
  let cs := s.data.dropWhile Char.isWhitespace
  let sign : Int := if headIs cs '-' then -1 else 1
  let cs1 := if headIs cs '-' || headIs cs '+' then cs.tail else cs
  let r := if hexMark cs1 then takeDigitsVal 16 cs1.tail.tail none
           else takeDigitsVal 10 cs1 none
  r.map (fun n => sign * (n : Int))

/-! ## Data model (prisma schema rows) -/

/-- Card row: read-only catalog record. -/
structure Card where
  id : Int
  name : String
  hp : Int
  attack : Int
  ptype : String
  pokedexNumber : Int
  imgUrl : String
deriving DecidableEq

/-- User row; password holds the bcrypt hash. -/
structure UserRow where
  id : Int
  email : String
  username : String
  password : String
  createdAt : Nat
deriving DecidableEq

/-- Deck row. -/
structure DeckRow where
  id : Int
  name : String
  userId : Int
deriving DecidableEq

/-- DeckCard association row: (deckId, cardId) pair. -/
structure DeckCardRow where
  deckId : Int
  cardId : Int
deriving DecidableEq

/-- The relational store: one list per table plus autoincrement counters. -/
structure DB where
  users : List UserRow
  cards : List Card
  decks : List DeckRow
  deckCards : List DeckCardRow
  nextDeckId : Int
  nextUserId : Int
deriving DecidableEq

/-- Initial store: empty deck tables, given seed users and cards. -/
def initDB (users : List UserRow) (cards : List Card) : DB :=
  ⟨users, cards, [], [], 1, 1⟩

/-- Association rows of one deck, in stored order. -/
def deckCardsOf (db : DB) (d : Int) : List DeckCardRow :=
  db.deckCards.filter (fun dc => dc.deckId == d)

/-- Card ids associated with one deck row. -/
def deckAssocIds (db : DB) (d : DeckRow) : List Int :=
  (deckCardsOf db d.id).map (fun dc => dc.cardId)

/-- A deck as returned by reads: the row with its included deckCards
card-id list (the per-card detail join is a pure lookup over the card
table and is elided). -/
structure DeckView where
  deck : DeckRow
  cardIds : List Int
deriving DecidableEq

def mkDeckView (db : DB) (d : DeckRow) : DeckView := ⟨d, deckAssocIds db d⟩

/-! ## Errors thrown by the deck service and repository -/

inductive DeckError where
  | nameRequired
  | nameEmpty
  | exactlyTen
  | duplicateIds
  | invalidIds
  | notFound
  | storeMissing
deriving DecidableEq

instance {ε α : Type} [DecidableEq ε] [DecidableEq α] : DecidableEq (Except ε α) := fun x y =>
  match x, y with
  | .error e, .error f =>
    if h : e = f then isTrue (by rw [h])
    else isFalse (fun hh => h (by injection hh))
  | .error _, .ok _ => isFalse (fun hh => Except.noConfusion hh)
  | .ok _, .error _ => isFalse (fun hh => Except.noConfusion hh)
  | .ok a, .ok b =>
    if h : a = b then isTrue (by rw [h])
    else isFalse (fun hh => h (by injection hh))

/-- The message carried by each thrown Error (storeMissing is the prisma
P2025 record-not-found error raised by update and delete). -/
def DeckError.message : DeckError → String
  | .nameRequired => "Deck name is required"
  | .nameEmpty => "Deck name cannot be empty"
  | .exactlyTen => "Exactly 10 cards are required"
  | .duplicateIds => "Duplicate card IDs are not allowed"
  | .invalidIds => "Some card IDs are invalid"
  | .notFound => "Deck not found"
  | .storeMissing => "An operation failed because it depends on one or more records that were required but not found"

/-! ## DeckRepository (deck.repository.ts) -/

/-- prisma.deck.findFirst where id and userId match, with deckCards included. -/
def DeckRepository.getDeckByIdAndUser (db : DB) (deckId userId : Int) : Option DeckView :=
  (db.decks.find? (fun d => d.id == deckId && d.userId == userId)).map (mkDeckView db)

/-- prisma.deck.findMany where userId matches, with deckCards included. -/
def DeckRepository.getUserDecks (db : DB) (userId : Int) : List DeckView :=
  (db.decks.filter (fun d => d.userId == userId)).map (mkDeckView db)

/-- prisma.card.findMany where id in cardIds, selecting ids. -/
def DeckRepository.validateCardIds (db : DB) (cardIds : List Int) : List Int :=
  (db.cards.filter (fun c => cardIds.contains c.id)).map (fun c => c.id)

/-- prisma.deck.create with nested deckCards create. -/
def DeckRepository.createDeck (db : DB) (userId : Int) (name : String) (cardIds : List Int) :
    DB × Except DeckError DeckView :=
  if cardIds.length ≠ 10 then (db, .error .exactlyTen)
  else
    let d : DeckRow := ⟨db.nextDeckId, name, userId⟩
    ({ db with decks := db.decks ++ [d],
               deckCards := db.deckCards ++ cardIds.map (fun c => ⟨db.nextDeckId, c⟩),
               nextDeckId := db.nextDeckId + 1 },
     .ok ⟨d, cardIds⟩)

/-- deckCard.deleteMany where deckId matches, then deck.update with nested
deckCards create. The two prisma calls are separate: the first commits
even when the second throws (no transaction wraps them). -/
def DeckRepository.updateDeck (db : DB) (deckId userId : Int) (name : String) (cardIds : List Int) :
    DB × Except DeckError DeckView :=
  if cardIds.length ≠ 10 then (db, .error .exactlyTen)
  else
    -- the deleteMany of the association rows commits first, in every branch
    match db.decks.find? (fun d => d.id == deckId && d.userId == userId) with
    | none =>
      ({ db with deckCards := db.deckCards.filter (fun dc => !(dc.deckId == deckId)) },
       .error .storeMissing)
    | some d =>
      ({ db with
          decks := db.decks.map
            (fun x => if x.id == deckId && x.userId == userId then { x with name := name } else x),
          deckCards := db.deckCards.filter (fun dc => !(dc.deckId == deckId)) ++
            cardIds.map (fun c => ⟨d.id, c⟩) },
       .ok ⟨{ d with name := name }, cardIds⟩)

/-- deckCard.deleteMany where deckId matches, then deck.delete where id and
userId match; again two separate prisma calls. -/
def DeckRepository.deleteDeck (db : DB) (deckId userId : Int) : DB × Except DeckError Unit :=
  match db.decks.find? (fun d => d.id == deckId && d.userId == userId) with
  | none =>
    ({ db with deckCards := db.deckCards.filter (fun dc => !(dc.deckId == deckId)) },
     .error .storeMissing)
  | some _ =>
    ({ db with
        decks := db.decks.filter (fun x => !(x.id == deckId && x.userId == userId)),
        deckCards := db.deckCards.filter (fun dc => !(dc.deckId == deckId)) },
     .ok ())

/-! ## DeckService (deck.service.ts) -/

def DeckService.createDeck (db : DB) (userId : Int) (name : Option String)
    (cardIds : Option (List Int)) : DB × Except DeckError DeckView :=
  match name with
  | none => (db, .error .nameRequired)
  | some nm =>
    if nm == "" || (jsTrim nm).length == 0 then (db, .error .nameRequired)
    else
      match cardIds with
      | none => (db, .error .exactlyTen)
      | some ids =>
        if ids.length ≠ 10 then (db, .error .exactlyTen)
        else if ids.dedup.length ≠ ids.length then (db, .error .duplicateIds)
        else if (DeckRepository.validateCardIds db ids).length ≠ ids.length then
          (db, .error .invalidIds)
        else DeckRepository.createDeck db userId (jsTrim nm) ids

def DeckService.getUserDecks (db : DB) (userId : Int) : List DeckView :=
  DeckRepository.getUserDecks db userId

def DeckService.getDeckById (db : DB) (deckId userId : Int) : Except DeckError DeckView :=
  match DeckRepository.getDeckByIdAndUser db deckId userId with
  | none => .error .notFound
  | some v => .ok v

def DeckService.updateDeck (db : DB) (deckId userId : Int) (name : Option String)
    (cardIds : Option (List Int)) : DB × Except DeckError DeckView :=
  match DeckRepository.getDeckByIdAndUser db deckId userId with
  | none => (db, .error .notFound)
  | some ex =>
    -- finalName of the source (name if supplied, else the stored name) is inlined
    if name.getD ex.deck.name == "" || (jsTrim (name.getD ex.deck.name)).length == 0 then
      (db, .error .nameEmpty)
    else
      match cardIds with
      | none =>
        DeckRepository.updateDeck db deckId userId (jsTrim (name.getD ex.deck.name)) ex.cardIds
      | some ids =>
        if ids.length ≠ 10 then (db, .error .exactlyTen)
        else if ids.dedup.length ≠ ids.length then (db, .error .duplicateIds)
        else if (DeckRepository.validateCardIds db ids).length ≠ ids.length then
          (db, .error .invalidIds)
        else DeckRepository.updateDeck db deckId userId (jsTrim (name.getD ex.deck.name)) ids

def DeckService.deleteDeck (db : DB) (deckId userId : Int) : DB × Except DeckError Unit :=
  match DeckRepository.getDeckByIdAndUser db deckId userId with
  | none => (db, .error .notFound)
  | some _ => DeckRepository.deleteDeck db deckId userId

/-! ## HTTP responses and deck controllers (deck.contoleur.ts) -/

inductive DeckBody where
  | err (msg : String)
  | deck (v : DeckView)
  | decks (vs : List DeckView)
  | msg (m : String)
deriving DecidableEq

structure DeckResp where
  status : Nat
  body : DeckBody
deriving DecidableEq

/-- The create controller catch clause: message substrings mapped to 400. -/
def deckErrIs400 (m : String) : Bool :=
  strHasSub m "required" || strHasSub m "10 cards" || strHasSub m "invalid" || strHasSub m "duplicate"

def renderCreate : Except DeckError DeckView → DeckResp
  | .ok v => ⟨201, .deck v⟩
  | .error e =>
    if deckErrIs400 e.message then ⟨400, .err e.message⟩
    else ⟨500, .err "Internal server error"⟩

def renderGet : Except DeckError DeckView → DeckResp
  | .ok v => ⟨200, .deck v⟩
  | .error e =>
    if strHasSub e.message "not found" then ⟨404, .err "Deck not found"⟩
    else ⟨500, .err "Internal server error"⟩

def renderUpdate : Except DeckError DeckView → DeckResp
  | .ok v => ⟨200, .deck v⟩
  | .error e =>
    if strHasSub e.message "not found" then ⟨404, .err "Deck not found"⟩
    else if deckErrIs400 e.message || strHasSub e.message "empty" then ⟨400, .err e.message⟩
    else ⟨500, .err "Internal server error"⟩

def renderDelete : Except DeckError Unit → DeckResp
  | .ok _ => ⟨200, .msg "Deck deleted successfully"⟩
  | .error e =>
    if strHasSub e.message "not found" then ⟨404, .err "Deck not found"⟩
    else ⟨500, .err "Internal server error"⟩

/-- Controller body of GET /api/decks/:id after the id was parsed. -/
def getDeckHttp (db : DB) (userId deckId : Int) : DeckResp :=
  renderGet (DeckService.getDeckById db deckId userId)

/-- Controller body of PATCH /api/decks/:id after the id was parsed. -/
def updateDeckHttp (db : DB) (userId deckId : Int) (name : Option String)
    (cards : Option (List Int)) : DB × DeckResp :=
  let r := DeckService.updateDeck db deckId userId name cards
  (r.1, renderUpdate r.2)

/-- Controller body of DELETE /api/decks/:id after the id was parsed. -/
def deleteDeckHttp (db : DB) (userId deckId : Int) : DB × DeckResp :=
  let r := DeckService.deleteDeck db deckId userId
  (r.1, renderDelete r.2)

def DeckContoleur.createDeck (db : DB) (userId : Int) (name : Option String)
    (cards : Option (List Int)) : DB × DeckResp :=
  let r := DeckService.createDeck db userId name cards
  (r.1, renderCreate r.2)

def DeckContoleur.getUserDecks (db : DB) (userId : Int) : DeckResp :=
  ⟨200, .decks (DeckService.getUserDecks db userId)⟩

def DeckContoleur.getDeckById (db : DB) (userId : Int) (idStr : String) : DeckResp :=
  match jsParseInt idStr with
  | none => ⟨400, .err "Invalid deck ID"⟩
  | some d => getDeckHttp db userId d

def DeckContoleur.updateDeck (db : DB) (userId : Int) (idStr : String) (name : Option String)
    (cards : Option (List Int)) : DB × DeckResp :=
  match jsParseInt idStr with
  | none => (db, ⟨400, .err "Invalid deck ID"⟩)
  | some d => updateDeckHttp db userId d name cards

def DeckContoleur.deleteDeck (db : DB) (userId : Int) (idStr : String) : DB × DeckResp :=
  match jsParseInt idStr with
  | none => (db, ⟨400, .err "Invalid deck ID"⟩)
  | some d => deleteDeckHttp db userId d

/-! ## Auth routes (auth.route.ts) -/

/-- The jwt payload signed on sign-up and sign-in. -/
structure Token where
  userId : Int
  email : String
deriving DecidableEq

/-- The user projection selected into responses. -/
structure PublicUser where
  id : Int
  email : String
  username : String
  createdAt : Nat
deriving DecidableEq

def publicOf (u : UserRow) : PublicUser := ⟨u.id, u.email, u.username, u.createdAt⟩

inductive AuthBody where
  | err (msg : String)
  | ok (token : Token) (user : PublicUser)
deriving DecidableEq

structure AuthResp where
  status : Nat
  body : AuthBody
deriving DecidableEq

/-- POST /api/auth/sign-up. The bcrypt.hash call is the parameter hash;
now is the creation timestamp assigned by the store. -/
def AuthRoute.signUp (db : DB) (hash : String → String) (now : Nat)
    (email username password : Option String) : DB × AuthResp :=
  if jsFalsy email || jsFalsy username || jsFalsy password then
    (db, ⟨400, .err "Email, username, and password are required"⟩)
  else
    match db.users.find? (fun x => x.email == email.getD "") with
    | some _ => (db, ⟨409, .err "Email already in use"⟩)
    | none =>
      ({ db with
          users := db.users ++
            [⟨db.nextUserId, email.getD "", username.getD "", hash (password.getD ""), now⟩],
          nextUserId := db.nextUserId + 1 },
       ⟨201, .ok ⟨db.nextUserId, email.getD ""⟩
         (publicOf ⟨db.nextUserId, email.getD "", username.getD "", hash (password.getD ""), now⟩)⟩)

/-- POST /api/auth/sign-in. The bcrypt.compare call is the parameter
verify, applied to the supplied password and the stored hash. -/
def AuthRoute.signIn (db : DB) (verify : String → String → Bool)
    (email password : Option String) : AuthResp :=
  if jsFalsy email || jsFalsy password then
    ⟨400, .err "Email and password are required"⟩
  else
    match db.users.find? (fun x => x.email == email.getD "") with
    | none => ⟨401, .err "Invalid email or password"⟩
    | some u =>
      if !(verify (password.getD "") u.password) then ⟨401, .err "Invalid email or password"⟩
      else ⟨200, .ok ⟨u.id, u.email⟩ (publicOf u)⟩

/-! ## Completed API operation sequences over the deck store -/

/-- One completed deck operation at the service layer, as reached from the
authenticated HTTP surface. -/
inductive Op where
  | create (userId : Int) (name : Option String) (cards : Option (List Int))
  | update (deckId userId : Int) (name : Option String) (cards : Option (List Int))
  | delete (deckId userId : Int)

/-- The store state after one completed operation (the state returned by
the service, whether the call succeeded or threw). -/
def applyOp (db : DB) : Op → DB
  | .create u n c => (DeckService.createDeck db u n c).1
  | .update d u n c => (DeckService.updateDeck db d u n c).1
  | .delete d u => (DeckService.deleteDeck db d u).1

def runOps (db : DB) (ops : List Op) : DB := ops.foldl applyOp db

/-! ## Store invariants -/

/-- Structural wellformedness of the store: deck ids are unique and below
the autoincrement counter, and association rows reference existing decks. -/
def WFdb (db : DB) : Prop :=
  (db.decks.map (fun d => d.id)).Nodup ∧
  (∀ d ∈ db.decks, d.id < db.nextDeckId) ∧
  (∀ dc ∈ db.deckCards, ∃ d ∈ db.decks, dc.deckId = d.id)

/-- Every stored deck has exactly ten distinct associated cards. -/
def InvTen (db : DB) : Prop :=
  ∀ d ∈ db.decks, (deckAssocIds db d).length = 10 ∧ (deckAssocIds db d).Nodup

/-- Every stored deck name is trimmed and non-empty. -/
def InvName (db : DB) : Prop :=
  ∀ d ∈ db.decks, jsTrim d.name = d.name ∧ d.name ≠ ""

def DeckInv (db : DB) : Prop := WFdb db ∧ InvTen db ∧ InvName db

/-! ## Helper lemmas on lists and trimming -/

theorem dropWhileHeadFalse {α} (p : α → Bool) (l : List α) (c : α)
    (h : (l.dropWhile p).head? = some c) : p c = false := by
  have hm := List.head?_dropWhile_not p l
  rw [h] at hm
  exact hm

theorem dropWhileEqSelf {α} (p : α → Bool) (l : List α)
    (h : ∀ c, l.head? = some c → p c = false) : l.dropWhile p = l := by
  cases l with
  | nil => rfl
  | cons a as =>
    have ha := h a rfl
    simp [List.dropWhile_cons, ha]

theorem dropWhileIdem {α} (p : α → Bool) (l : List α) :
    (l.dropWhile p).dropWhile p = l.dropWhile p :=
  dropWhileEqSelf p _ (fun c hc => dropWhileHeadFalse p l c hc)

theorem dropWhileGetLast {α} (p : α → Bool) (l : List α)
    (h : l.dropWhile p ≠ []) : (l.dropWhile p).getLast? = l.getLast? := by
  obtain ⟨t, ht⟩ := List.dropWhile_suffix p (l := l)
  conv_rhs => rw [← ht]
  rw [List.getLast?_append]
  cases hx : (l.dropWhile p).getLast? with
  | none => exact absurd (List.getLast?_eq_none_iff.mp hx) h
  | some x => rfl

/-- The list form of jsTrim, for reasoning. -/
theorem jsTrim_data (s : String) :
    (jsTrim s).data =
      ((s.data.dropWhile Char.isWhitespace).reverse.dropWhile Char.isWhitespace).reverse := rfl

theorem jsTrimListIdem (l : List Char) :
    ((((((l.dropWhile Char.isWhitespace).reverse.dropWhile
        Char.isWhitespace).reverse).dropWhile Char.isWhitespace).reverse.dropWhile
        Char.isWhitespace).reverse) =
      ((l.dropWhile Char.isWhitespace).reverse.dropWhile Char.isWhitespace).reverse := by
  have h1 :
      (((l.dropWhile Char.isWhitespace).reverse.dropWhile
          Char.isWhitespace).reverse).dropWhile Char.isWhitespace =
        ((l.dropWhile Char.isWhitespace).reverse.dropWhile Char.isWhitespace).reverse := by
    apply dropWhileEqSelf
    intro c hc
    rw [List.head?_reverse] at hc
    have hne : (l.dropWhile Char.isWhitespace).reverse.dropWhile Char.isWhitespace ≠ [] := by
      intro h0
      rw [h0] at hc
      simp at hc
    rw [dropWhileGetLast _ _ hne, List.getLast?_reverse] at hc
    exact dropWhileHeadFalse Char.isWhitespace l c hc
  rw [h1, List.reverse_reverse, dropWhileIdem]

theorem jsTrim_idem (s : String) : jsTrim (jsTrim s) = jsTrim s := by
  have h : (jsTrim (jsTrim s)).data = (jsTrim s).data := by
    rw [jsTrim_data, jsTrim_data]
    exact jsTrimListIdem s.data
  exact String.ext h

theorem jsTrim_ne_empty (s : String) (h : (jsTrim s).length ≠ 0) : jsTrim s ≠ "" := by
  intro h0
  rw [h0] at h
  exact h rfl

theorem nodupOfDedupLength {α} [DecidableEq α] (l : List α)
    (h : l.dedup.length = l.length) : l.Nodup :=
  List.dedup_eq_self.mp ((List.dedup_sublist l).eq_of_length h)

/-! ## Invariant preservation -/

theorem deckInv_repoCreate (db : DB) (hInv : DeckInv db) (u : Int) (nm : String)
    (ids : List Int) (hlen : ids.length = 10) (hdup : ids.Nodup)
    (hnm : jsTrim nm = nm) (hne : nm ≠ "") :
    DeckInv (DeckRepository.createDeck db u nm ids).1 := by
  obtain ⟨⟨hnd, hlt, horph⟩, hten, hname⟩ := hInv
  have hstate : (DeckRepository.createDeck db u nm ids).1 =
      { db with decks := db.decks ++ [⟨db.nextDeckId, nm, u⟩],
                deckCards := db.deckCards ++ ids.map (fun c => ⟨db.nextDeckId, c⟩),
                nextDeckId := db.nextDeckId + 1 } := by
    simp [DeckRepository.createDeck, hlen]
  rw [hstate]
  have hfreshRows : db.deckCards.filter (fun dc => dc.deckId == db.nextDeckId) = [] := by
    rw [List.filter_eq_nil_iff]
    intro dc hdc hbeq
    obtain ⟨d0, hd0, hid0⟩ := horph dc hdc
    have : dc.deckId = db.nextDeckId := by simpa using hbeq
    have hlt0 := hlt d0 hd0
    omega
  refine ⟨⟨?_, ?_, ?_⟩, ?_, ?_⟩
  · -- deck ids stay distinct
    simp only [List.map_append, List.map_cons, List.map_nil]
    rw [List.nodup_append]
    refine ⟨hnd, List.nodup_singleton _, ?_⟩
    intro a ha hb
    simp only [List.mem_singleton] at hb
    simp only [List.mem_map] at ha
    obtain ⟨d0, hd0, hid0⟩ := ha
    have hlt0 := hlt d0 hd0
    simp only [hb] at hid0
    omega
  · -- ids below the counter
    intro d hd
    simp only [List.mem_append, List.mem_singleton] at hd
    rcases hd with hd | hd
    · have := hlt d hd
      show d.id < db.nextDeckId + 1
      omega
    · show d.id < db.nextDeckId + 1
      simp [hd]
  · -- association rows reference existing decks
    intro dc hdc
    simp only [List.mem_append] at hdc
    rcases hdc with hdc | hdc
    · obtain ⟨d0, hd0, hid0⟩ := horph dc hdc
      exact ⟨d0, by simp [hd0], hid0⟩
    · simp only [List.mem_map] at hdc
      obtain ⟨c0, _, hc0⟩ := hdc
      refine ⟨⟨db.nextDeckId, nm, u⟩, by simp, ?_⟩
      rw [← hc0]
  · -- every deck keeps exactly ten distinct card ids
    intro d hd
    simp only [List.mem_append, List.mem_singleton] at hd
    rcases hd with hd | hd
    · have hdiff : d.id ≠ db.nextDeckId := by
        have := hlt d hd; omega
      have hassoc : deckAssocIds
          { db with decks := db.decks ++ [⟨db.nextDeckId, nm, u⟩],
                    deckCards := db.deckCards ++ ids.map (fun c => ⟨db.nextDeckId, c⟩),
                    nextDeckId := db.nextDeckId + 1 } d = deckAssocIds db d := by
        unfold deckAssocIds deckCardsOf
        simp only [List.filter_append]
        have hnew : (ids.map (fun c => (⟨db.nextDeckId, c⟩ : DeckCardRow))).filter
            (fun dc => dc.deckId == d.id) = [] := by
          rw [List.filter_eq_nil_iff]
          intro dc hdc hbeq
          simp only [List.mem_map] at hdc
          obtain ⟨c0, _, hc0⟩ := hdc
          rw [← hc0] at hbeq
          simp at hbeq
          exact hdiff hbeq.symm
        rw [hnew, List.append_nil]
      rw [hassoc]
      exact hten d hd
    · subst hd
      have hassoc : deckAssocIds
          { db with decks := db.decks ++ [⟨db.nextDeckId, nm, u⟩],
                    deckCards := db.deckCards ++ ids.map (fun c => ⟨db.nextDeckId, c⟩),
                    nextDeckId := db.nextDeckId + 1 } ⟨db.nextDeckId, nm, u⟩ = ids := by
        unfold deckAssocIds deckCardsOf
        simp only [List.filter_append]
        rw [hfreshRows]
        have hnew : (ids.map (fun c => (⟨db.nextDeckId, c⟩ : DeckCardRow))).filter
            (fun dc => dc.deckId == db.nextDeckId) =
            ids.map (fun c => (⟨db.nextDeckId, c⟩ : DeckCardRow)) := by
          rw [List.filter_eq_self]
          intro dc hdc
          simp only [List.mem_map] at hdc
          obtain ⟨c0, _, hc0⟩ := hdc
          rw [← hc0]
          simp
        rw [hnew, List.nil_append, List.map_map]
        have hcomp : ((fun dc => dc.cardId) ∘ fun c =>
            ({ deckId := db.nextDeckId, cardId := c } : DeckCardRow)) = fun c => c := rfl
        rw [hcomp]
        simp
      rw [hassoc]
      exact ⟨hlen, hdup⟩
  · -- every deck name stays trimmed and non-empty
    intro d hd
    simp only [List.mem_append, List.mem_singleton] at hd
    rcases hd with hd | hd
    · exact hname d hd
    · subst hd
      exact ⟨hnm, hne⟩

theorem deckInv_repoUpdate (db : DB) (hInv : DeckInv db) (deckId userId : Int)
    (nm : String) (ids : List Int) (dd : DeckRow)
    (hfind : db.decks.find? (fun d => d.id == deckId && d.userId == userId) = some dd)
    (hlen : ids.length = 10) (hdup : ids.Nodup)
    (hnm : jsTrim nm = nm) (hne : nm ≠ "") :
    DeckInv (DeckRepository.updateDeck db deckId userId nm ids).1 := by
  obtain ⟨⟨hnd, hlt, horph⟩, hten, hname⟩ := hInv
  have hpr := List.find?_some hfind
  have hddmem := List.mem_of_find?_eq_some hfind
  simp only [Bool.and_eq_true, beq_iff_eq] at hpr
  obtain ⟨hddid, hddu⟩ := hpr
  have hstate : (DeckRepository.updateDeck db deckId userId nm ids).1 =
      { db with
        decks := db.decks.map
          (fun x => if x.id == deckId && x.userId == userId then { x with name := nm } else x),
        deckCards := db.deckCards.filter (fun dc => !(dc.deckId == deckId)) ++
          ids.map (fun c => ⟨dd.id, c⟩) } := by
    simp [DeckRepository.updateDeck, hlen, hfind]
  rw [hstate]
  have hupdid : ∀ x : DeckRow,
      (if x.id == deckId && x.userId == userId then { x with name := nm } else x).id = x.id := by
    intro x
    split <;> rfl
  have hsameid : ∀ x ∈ db.decks, x.id = deckId → x = dd := by
    intro x hx hxid
    exact List.inj_on_of_nodup_map hnd hx hddmem (by rw [hxid, hddid])
  refine ⟨⟨?_, ?_, ?_⟩, ?_, ?_⟩
  · -- deck ids stay distinct
    rw [List.map_map]
    have hcongr : db.decks.map
        ((fun d => d.id) ∘ fun x =>
          if x.id == deckId && x.userId == userId then { x with name := nm } else x) =
        db.decks.map (fun d => d.id) :=
      List.map_congr_left (fun a _ => hupdid a)
    rw [hcongr]
    exact hnd
  · -- ids below the counter
    intro d hd
    simp only [List.mem_map] at hd
    obtain ⟨x, hx, hxd⟩ := hd
    have : d.id = x.id := by rw [← hxd]; exact hupdid x
    show d.id < db.nextDeckId
    rw [this]
    exact hlt x hx
  · -- association rows reference existing decks
    intro dc hdc
    simp only [List.mem_append] at hdc
    rcases hdc with hdc | hdc
    · have hdc0 := List.mem_of_mem_filter hdc
      obtain ⟨d0, hd0, hid0⟩ := horph dc hdc0
      refine ⟨if d0.id == deckId && d0.userId == userId then { d0 with name := nm } else d0,
        List.mem_map_of_mem _ hd0, ?_⟩
      rw [hupdid d0]
      exact hid0
    · simp only [List.mem_map] at hdc
      obtain ⟨c0, _, hc0⟩ := hdc
      refine ⟨if dd.id == deckId && dd.userId == userId then { dd with name := nm } else dd,
        List.mem_map_of_mem _ hddmem, ?_⟩
      rw [hupdid dd, ← hc0]
  · -- every deck keeps exactly ten distinct card ids
    intro d hd
    simp only [List.mem_map] at hd
    obtain ⟨x, hx, hxd⟩ := hd
    have hdid : d.id = x.id := by rw [← hxd]; exact hupdid x
    by_cases hxdd : x.id = deckId
    · -- the updated deck: its rows are exactly the fresh ones
      have hassoc : deckAssocIds
          { db with
            decks := db.decks.map
              (fun x => if x.id == deckId && x.userId == userId then { x with name := nm } else x),
            deckCards := db.deckCards.filter (fun dc => !(dc.deckId == deckId)) ++
              ids.map (fun c => ⟨dd.id, c⟩) } d = ids := by
        unfold deckAssocIds deckCardsOf
        simp only [List.filter_append, List.filter_filter]
        have hold : db.deckCards.filter
            (fun a => a.deckId == d.id && !(a.deckId == deckId)) = [] := by
          rw [List.filter_eq_nil_iff]
          intro a _ hab
          simp only [Bool.and_eq_true, beq_iff_eq, Bool.not_eq_true', beq_eq_false_iff_ne] at hab
          exact hab.2 (by rw [hab.1, hdid, hxdd])
        have hnew : (ids.map (fun c => (⟨dd.id, c⟩ : DeckCardRow))).filter
            (fun dc => dc.deckId == d.id) = ids.map (fun c => (⟨dd.id, c⟩ : DeckCardRow)) := by
          rw [List.filter_eq_self]
          intro a ha
          simp only [List.mem_map] at ha
          obtain ⟨c0, _, hc0⟩ := ha
          rw [← hc0]
          simp only [beq_iff_eq]
          rw [hddid, hdid, hxdd]
        rw [hold, hnew, List.nil_append, List.map_map]
        have hcomp : ((fun dc => dc.cardId) ∘ fun c =>
            ({ deckId := dd.id, cardId := c } : DeckCardRow)) = fun c => c := rfl
        rw [hcomp]
        simp
      rw [hassoc]
      exact ⟨hlen, hdup⟩
    · -- untouched decks keep their rows
      have hassoc : deckAssocIds
          { db with
            decks := db.decks.map
              (fun x => if x.id == deckId && x.userId == userId then { x with name := nm } else x),
            deckCards := db.deckCards.filter (fun dc => !(dc.deckId == deckId)) ++
              ids.map (fun c => ⟨dd.id, c⟩) } d = deckAssocIds db x := by
        unfold deckAssocIds deckCardsOf
        simp only [List.filter_append, List.filter_filter]
        have hold : db.deckCards.filter
            (fun a => a.deckId == d.id && !(a.deckId == deckId)) =
            db.deckCards.filter (fun a => a.deckId == x.id) := by
          apply List.filter_congr
          intro a _
          rw [hdid]
          cases hax : (a.deckId == x.id) with
          | false => simp
          | true =>
            have : a.deckId = x.id := by simpa using hax
            simp only [Bool.true_and]
            simp only [Bool.not_eq_true', beq_eq_false_iff_ne]
            rw [this]
            exact hxdd
        have hnew : (ids.map (fun c => (⟨dd.id, c⟩ : DeckCardRow))).filter
            (fun dc => dc.deckId == d.id) = [] := by
          rw [List.filter_eq_nil_iff]
          intro a ha hab
          simp only [List.mem_map] at ha
          obtain ⟨c0, _, hc0⟩ := ha
          rw [← hc0] at hab
          simp only [beq_iff_eq] at hab
          exact hxdd (by rw [← hdid, ← hab, hddid])
        rw [hold, hnew, List.append_nil]
      rw [hassoc]
      exact hten x hx
  · -- every deck name stays trimmed and non-empty
    intro d hd
    simp only [List.mem_map] at hd
    obtain ⟨x, hx, hxd⟩ := hd
    rw [← hxd]
    split
    · exact ⟨hnm, hne⟩
    · exact hname x hx

theorem deckInv_repoDelete (db : DB) (hInv : DeckInv db) (deckId userId : Int) (dd : DeckRow)
    (hfind : db.decks.find? (fun d => d.id == deckId && d.userId == userId) = some dd) :
    DeckInv (DeckRepository.deleteDeck db deckId userId).1 := by
  obtain ⟨⟨hnd, hlt, horph⟩, hten, hname⟩ := hInv
  have hpr := List.find?_some hfind
  have hddmem := List.mem_of_find?_eq_some hfind
  simp only [Bool.and_eq_true, beq_iff_eq] at hpr
  obtain ⟨hddid, hddu⟩ := hpr
  have hsameid : ∀ x ∈ db.decks, x.id = deckId → x = dd := by
    intro x hx hxid
    exact List.inj_on_of_nodup_map hnd hx hddmem (by rw [hxid, hddid])
  have hstate : (DeckRepository.deleteDeck db deckId userId).1 =
      { db with
        decks := db.decks.filter (fun x => !(x.id == deckId && x.userId == userId)),
        deckCards := db.deckCards.filter (fun dc => !(dc.deckId == deckId)) } := by
    simp [DeckRepository.deleteDeck, hfind]
  rw [hstate]
  have hkeepid : ∀ x ∈ db.decks.filter (fun x => !(x.id == deckId && x.userId == userId)),
      x.id ≠ deckId := by
    intro x hx hxid
    have hmem := List.mem_of_mem_filter hx
    have hcond := List.of_mem_filter hx
    have hxdd := hsameid x hmem hxid
    rw [hxdd] at hcond
    simp [hddid, hddu] at hcond
  refine ⟨⟨?_, ?_, ?_⟩, ?_, ?_⟩
  · -- deck ids stay distinct
    show (List.map (fun d => d.id)
        (db.decks.filter (fun x => !(x.id == deckId && x.userId == userId)))).Nodup
    exact List.Nodup.sublist ((List.filter_sublist _).map (fun (d : DeckRow) => d.id)) hnd
  · -- ids below the counter
    intro d hd
    exact hlt d (List.mem_of_mem_filter hd)
  · -- association rows reference existing decks
    intro dc hdc
    have hdc0 := List.mem_of_mem_filter hdc
    have hdccond := List.of_mem_filter hdc
    simp only [Bool.not_eq_true', beq_eq_false_iff_ne] at hdccond
    obtain ⟨d0, hd0, hid0⟩ := horph dc hdc0
    refine ⟨d0, ?_, hid0⟩
    rw [List.mem_filter]
    refine ⟨hd0, ?_⟩
    simp only [Bool.not_eq_true', Bool.and_eq_false_iff, beq_eq_false_iff_ne]
    left
    rw [← hid0]
    exact hdccond
  · -- every deck keeps exactly ten distinct card ids
    intro d hd
    have hmem := List.mem_of_mem_filter hd
    have hne0 := hkeepid d hd
    have hassoc : deckAssocIds
        { db with
          decks := db.decks.filter (fun x => !(x.id == deckId && x.userId == userId)),
          deckCards := db.deckCards.filter (fun dc => !(dc.deckId == deckId)) } d =
        deckAssocIds db d := by
      unfold deckAssocIds deckCardsOf
      simp only [List.filter_filter]
      congr 1
      apply List.filter_congr
      intro a _
      cases hax : (a.deckId == d.id) with
      | false => simp
      | true =>
        have : a.deckId = d.id := by simpa using hax
        simp only [Bool.true_and]
        simp only [Bool.not_eq_true', beq_eq_false_iff_ne]
        rw [this]
        exact hne0
    rw [hassoc]
    exact hten d hmem
  · -- every deck name stays trimmed and non-empty
    intro d hd
    exact hname d (List.mem_of_mem_filter hd)

theorem deckInv_create (db : DB) (h : DeckInv db) (u : Int) (n : Option String)
    (c : Option (List Int)) : DeckInv (DeckService.createDeck db u n c).1 := by
  unfold DeckService.createDeck
  split
  · exact h
  rename_i nm
  split
  · exact h
  rename_i h1
  split
  · exact h
  rename_i ids
  split
  · exact h
  rename_i h2
  split
  · exact h
  rename_i h3
  split
  · exact h
  rename_i h4
  simp only [Bool.or_eq_true, beq_iff_eq, not_or] at h1
  refine deckInv_repoCreate db h u (jsTrim nm) ids (by omega)
    (nodupOfDedupLength ids (by omega)) (jsTrim_idem nm) ?_
  apply jsTrim_ne_empty
  have := h1.2
  simpa using this

theorem deckInv_update (db : DB) (h : DeckInv db) (deckId userId : Int) (n : Option String)
    (c : Option (List Int)) : DeckInv (DeckService.updateDeck db deckId userId n c).1 := by
  unfold DeckService.updateDeck
  split
  · exact h
  rename_i ex hlook
  obtain ⟨dd, hfind, hmk⟩ := Option.map_eq_some'.mp hlook
  have hddmem := List.mem_of_find?_eq_some hfind
  split
  · exact h
  rename_i h1
  simp only [Bool.or_eq_true, beq_iff_eq, not_or] at h1
  have hne : jsTrim (n.getD ex.deck.name) ≠ "" := by
    apply jsTrim_ne_empty
    have := h1.2
    simpa using this
  split
  · -- cards not supplied: the retained association list
    have hcards : ex.cardIds = deckAssocIds db dd := by rw [← hmk]; rfl
    have hten := h.2.1 dd hddmem
    refine deckInv_repoUpdate db h deckId userId (jsTrim (n.getD ex.deck.name))
      ex.cardIds dd hfind ?_ ?_ (jsTrim_idem _) hne
    · rw [hcards]; exact hten.1
    · rw [hcards]; exact hten.2
  rename_i ids
  split
  · exact h
  rename_i h2
  split
  · exact h
  rename_i h3
  split
  · exact h
  rename_i h4
  exact deckInv_repoUpdate db h deckId userId (jsTrim (n.getD ex.deck.name))
    ids dd hfind (by omega) (nodupOfDedupLength ids (by omega)) (jsTrim_idem _) hne

theorem deckInv_delete (db : DB) (h : DeckInv db) (deckId userId : Int) :
    DeckInv (DeckService.deleteDeck db deckId userId).1 := by
  unfold DeckService.deleteDeck
  split
  · exact h
  rename_i ex hlook
  obtain ⟨dd, hfind, _⟩ := Option.map_eq_some'.mp hlook
  exact deckInv_repoDelete db h deckId userId dd hfind

theorem deckInv_applyOp (db : DB) (h : DeckInv db) (op : Op) : DeckInv (applyOp db op) := by
  cases op with
  | create u n c => exact deckInv_create db h u n c
  | update d u n c => exact deckInv_update db h d u n c
  | delete d u => exact deckInv_delete db h d u

theorem deckInv_runOps (db : DB) (h : DeckInv db) (ops : List Op) :
    DeckInv (runOps db ops) := by
  induction ops generalizing db with
  | nil => exact h
  | cons op rest ih => exact ih (applyOp db op) (deckInv_applyOp db h op)

theorem deckInv_init (us : List UserRow) (cs : List Card) : DeckInv (initDB us cs) := by
  refine ⟨⟨?_, ?_, ?_⟩, ?_, ?_⟩ <;> simp [initDB, WFdb, InvTen, InvName]

/-! ## Not-found path helpers -/

theorem svcUpdate_notFound (db : DB) (d u : Int) (name : Option String)
    (cards : Option (List Int)) (h : DeckRepository.getDeckByIdAndUser db d u = none) :
    DeckService.updateDeck db d u name cards = (db, .error .notFound) := by
  unfold DeckService.updateDeck
  rw [h]

theorem svcDelete_notFound (db : DB) (d u : Int)
    (h : DeckRepository.getDeckByIdAndUser db d u = none) :
    DeckService.deleteDeck db d u = (db, .error .notFound) := by
  unfold DeckService.deleteDeck
  rw [h]

theorem getHttp_notFound (db : DB) (d u : Int)
    (h : DeckRepository.getDeckByIdAndUser db d u = none) :
    getDeckHttp db u d = ⟨404, .err "Deck not found"⟩ := by
  unfold getDeckHttp DeckService.getDeckById
  rw [h]
  decide

theorem updateHttp_notFound (db : DB) (d u : Int) (name : Option String)
    (cards : Option (List Int)) (h : DeckRepository.getDeckByIdAndUser db d u = none) :
    updateDeckHttp db u d name cards = (db, ⟨404, .err "Deck not found"⟩) := by
  unfold updateDeckHttp
  rw [svcUpdate_notFound db d u name cards h]
  exact congrArg (Prod.mk db)
    (show renderUpdate (Except.error DeckError.notFound) =
      ⟨404, DeckBody.err "Deck not found"⟩ by decide)

theorem deleteHttp_notFound (db : DB) (d u : Int)
    (h : DeckRepository.getDeckByIdAndUser db d u = none) :
    deleteDeckHttp db u d = (db, ⟨404, .err "Deck not found"⟩) := by
  unfold deleteDeckHttp
  rw [svcDelete_notFound db d u h]
  exact congrArg (Prod.mk db)
    (show renderDelete (Except.error DeckError.notFound) =
      ⟨404, DeckBody.err "Deck not found"⟩ by decide)

/-- Lookup misses when every deck with the requested id belongs to someone
else, or when no deck has the id at all. -/
theorem lookup_none_of_other (db : DB) (d u : Int)
    (h : ∀ x ∈ db.decks, x.id = d → x.userId ≠ u) :
    DeckRepository.getDeckByIdAndUser db d u = none := by
  unfold DeckRepository.getDeckByIdAndUser
  rw [Option.map_eq_none']
  rw [List.find?_eq_none]
  intro x hx hbx
  simp only [Bool.and_eq_true, beq_iff_eq] at hbx
  exact h x hx hbx.1 hbx.2

/-! ## Concrete states for witnesses and counterexamples -/

/-- Ten catalog cards used by the concrete store states below. -/
def cardsTen : List Card :=
  [⟨1, "Bulbasaur", 45, 49, "GRASS", 1, "u1"⟩,
   ⟨2, "Ivysaur", 60, 62, "GRASS", 2, "u2"⟩,
   ⟨3, "Venusaur", 80, 82, "GRASS", 3, "u3"⟩,
   ⟨4, "Charmander", 39, 52, "FIRE", 4, "u4"⟩,
   ⟨5, "Charmeleon", 58, 64, "FIRE", 5, "u5"⟩,
   ⟨6, "Charizard", 78, 84, "FIRE", 6, "u6"⟩,
   ⟨7, "Squirtle", 44, 48, "WATER", 7, "u7"⟩,
   ⟨8, "Wartortle", 59, 63, "WATER", 8, "u8"⟩,
   ⟨9, "Blastoise", 79, 83, "WATER", 9, "u9"⟩,
   ⟨10, "Pikachu", 35, 55, "ELECTRIC", 25, "u10"⟩]

/-- A store holding one deck of user 1 with cards 1 to 10. -/
def dbOneDeck : DB :=
  ⟨[], cardsTen, [⟨1, "Aggro", 1⟩],
   [⟨1, 1⟩, ⟨1, 2⟩, ⟨1, 3⟩, ⟨1, 4⟩, ⟨1, 5⟩, ⟨1, 6⟩, ⟨1, 7⟩, ⟨1, 8⟩, ⟨1, 9⟩, ⟨1, 10⟩], 2, 1⟩

/-! ## Claim theorems -/

/-- C1: the replace operation is not atomic. The deleteMany call and the
deck.update call are two independent store calls: when the second call
fails (here: the update finds no record matching the where clause, the
prisma P2025 error the spec calls a failure mid-swap), the already
committed deletion is not rolled back, and the deck that held ten cards
before the call is visible to a subsequent read with zero cards. -/
theorem replace_swap_not_atomic :
    ((deckCardsOf dbOneDeck 1).map (fun dc => dc.cardId)).length = 10 ∧
    (DeckRepository.updateDeck dbOneDeck 1 2 "Stolen" [1, 2, 3, 4, 5, 6, 7, 8, 9, 10]).2 =
      Except.error DeckError.storeMissing ∧
    deckCardsOf (DeckRepository.updateDeck dbOneDeck 1 2 "Stolen"
      [1, 2, 3, 4, 5, 6, 7, 8, 9, 10]).1 1 = [] ∧
    DeckService.getUserDecks (DeckRepository.updateDeck dbOneDeck 1 2 "Stolen"
      [1, 2, 3, 4, 5, 6, 7, 8, 9, 10]).1 1 = [⟨⟨1, "Aggro", 1⟩, []⟩] := by decide

/-- C2: after any completed sequence of create, replace and delete
operations, every deck returned by the list-by-user read and every deck
returned by a successful get-by-id read carries exactly ten distinct
associated card ids. -/
theorem reads_return_ten_distinct_cards (us : List UserRow) (cs : List Card)
    (ops : List Op) (u : Int) :
    (∀ v ∈ DeckService.getUserDecks (runOps (initDB us cs) ops) u,
      v.cardIds.length = 10 ∧ v.cardIds.Nodup) ∧
    (∀ (d : Int) (v : DeckView),
      DeckService.getDeckById (runOps (initDB us cs) ops) d u = .ok v →
      v.cardIds.length = 10 ∧ v.cardIds.Nodup) := by
  have hinv := deckInv_runOps (initDB us cs) (deckInv_init us cs) ops
  constructor
  · intro v hv
    unfold DeckService.getUserDecks DeckRepository.getUserDecks at hv
    simp only [List.mem_map] at hv
    obtain ⟨d0, hd0, hmk⟩ := hv
    have hd0m := List.mem_of_mem_filter hd0
    have hres := hinv.2.1 d0 hd0m
    rw [← hmk]
    exact hres
  · intro d v hok
    unfold DeckService.getDeckById at hok
    cases hlook : DeckRepository.getDeckByIdAndUser (runOps (initDB us cs) ops) d u with
    | none =>
      rw [hlook] at hok
      exact Except.noConfusion hok
    | some ex =>
      rw [hlook] at hok
      have hexv : ex = v := by
        simpa using hok
      obtain ⟨dd, hfind, hmk⟩ := Option.map_eq_some'.mp hlook
      have hddm := List.mem_of_find?_eq_some hfind
      have hres := hinv.2.1 dd hddm
      rw [← hexv, ← hmk]
      exact hres

/-- One concrete completed operation sequence: a single create. -/
def opsCreateOne : List Op :=
  [Op.create 1 (some "Starter Deck") (some [1, 2, 3, 4, 5, 6, 7, 8, 9, 10])]

theorem reads_return_ten_distinct_cards_witness :
    (⟨⟨1, "Starter Deck", 1⟩, [1, 2, 3, 4, 5, 6, 7, 8, 9, 10]⟩ : DeckView) ∈
      DeckService.getUserDecks (runOps (initDB [] cardsTen) opsCreateOne) 1 ∧
    ([1, 2, 3, 4, 5, 6, 7, 8, 9, 10] : List Int).length = 10 ∧
    ([1, 2, 3, 4, 5, 6, 7, 8, 9, 10] : List Int).Nodup :=
  ⟨by decide,
   (reads_return_ten_distinct_cards [] cardsTen opsCreateOne 1).1
     ⟨⟨1, "Starter Deck", 1⟩, [1, 2, 3, 4, 5, 6, 7, 8, 9, 10]⟩ (by decide)⟩

/-- C3: a create request with a ten-element card list containing a
repeated id is rejected with the duplicate-card error and nothing is
persisted, but the controller maps it to HTTP 500, not 400: the catch
clause matches the lowercase substring duplicate against the thrown
message Duplicate card IDs are not allowed, which only contains the
capitalized form, so the error falls through to the internal-error
branch. -/
theorem create_duplicate_maps_to_500 :
    ([1, 1, 2, 3, 4, 5, 6, 7, 8, 9] : List Int).length = 10 ∧
    ¬ ([1, 1, 2, 3, 4, 5, 6, 7, 8, 9] : List Int).Nodup ∧
    jsTrim "My Deck" ≠ "" ∧
    (DeckService.createDeck (initDB [] cardsTen) 1 (some "My Deck")
      (some [1, 1, 2, 3, 4, 5, 6, 7, 8, 9])).2 = Except.error DeckError.duplicateIds ∧
    DeckContoleur.createDeck (initDB [] cardsTen) 1 (some "My Deck")
      (some [1, 1, 2, 3, 4, 5, 6, 7, 8, 9]) =
      (initDB [] cardsTen, ⟨500, .err "Internal server error"⟩) := by decide

/-- C10: after any completed sequence of create, replace and delete
operations, every stored deck name is trimmed and non-empty. -/
theorem stored_deck_names_trimmed_nonempty (us : List UserRow) (cs : List Card)
    (ops : List Op) :
    ∀ d ∈ (runOps (initDB us cs) ops).decks, jsTrim d.name = d.name ∧ d.name ≠ "" :=
  fun d hd => (deckInv_runOps (initDB us cs) (deckInv_init us cs) ops).2.2 d hd

/-- A create whose supplied name carries surrounding whitespace. -/
def opsCreatePadded : List Op :=
  [Op.create 1 (some "  Starter Deck ") (some [1, 2, 3, 4, 5, 6, 7, 8, 9, 10])]

theorem stored_deck_names_trimmed_nonempty_witness :
    (⟨1, "Starter Deck", 1⟩ : DeckRow) ∈ (runOps (initDB [] cardsTen) opsCreatePadded).decks ∧
    jsTrim "Starter Deck" = "Starter Deck" ∧ ("Starter Deck" : String) ≠ "" :=
  ⟨by decide,
   stored_deck_names_trimmed_nonempty [] cardsTen opsCreatePadded
     ⟨1, "Starter Deck", 1⟩ (by decide)⟩

/-- C4: an update or delete request on a deck id that does not exist for
the requesting user fails with the not-found error before any other
validation: whatever name or card list is supplied, the service reports
notFound with the store unchanged, and the HTTP layer renders 404 Deck
not found. -/
theorem missing_deck_fails_notFound_before_validation (db : DB) (d u : Int)
    (name : Option String) (cards : Option (List Int))
    (h : DeckRepository.getDeckByIdAndUser db d u = none) :
    DeckService.updateDeck db d u name cards = (db, .error .notFound) ∧
    DeckService.deleteDeck db d u = (db, .error .notFound) ∧
    updateDeckHttp db u d name cards = (db, ⟨404, .err "Deck not found"⟩) ∧
    deleteDeckHttp db u d = (db, ⟨404, .err "Deck not found"⟩) :=
  ⟨svcUpdate_notFound db d u name cards h, svcDelete_notFound db d u h,
   updateHttp_notFound db d u name cards h, deleteHttp_notFound db d u h⟩

theorem missing_deck_fails_notFound_before_validation_witness :
    DeckService.updateDeck (initDB [] cardsTen) 99 1 (some "") (some [1, 1]) =
      (initDB [] cardsTen, .error .notFound) ∧
    DeckService.deleteDeck (initDB [] cardsTen) 99 1 =
      (initDB [] cardsTen, .error .notFound) ∧
    updateDeckHttp (initDB [] cardsTen) 1 99 (some "") (some [1, 1]) =
      (initDB [] cardsTen, ⟨404, .err "Deck not found"⟩) ∧
    deleteDeckHttp (initDB [] cardsTen) 1 99 =
      (initDB [] cardsTen, ⟨404, .err "Deck not found"⟩) :=
  missing_deck_fails_notFound_before_validation (initDB [] cardsTen) 99 1
    (some "") (some [1, 1]) (by decide)

/-- C6: a sign-in with a registered email and a wrong password and a
sign-in with an unregistered email produce identical responses, both the
401 status and the same error body, so the response does not reveal
whether the email exists. -/
theorem signin_unknown_email_and_wrong_password_identical (db : DB)
    (verify : String → String → Bool) (e1 p1 e2 p2 : String) (u : UserRow)
    (he1 : e1 ≠ "") (hp1 : p1 ≠ "") (he2 : e2 ≠ "") (hp2 : p2 ≠ "")
    (hfound : db.users.find? (fun x => x.email == e1) = some u)
    (hbad : verify p1 u.password = false)
    (hmiss : db.users.find? (fun x => x.email == e2) = none) :
    AuthRoute.signIn db verify (some e1) (some p1) =
      AuthRoute.signIn db verify (some e2) (some p2) ∧
    AuthRoute.signIn db verify (some e1) (some p1) =
      ⟨401, .err "Invalid email or password"⟩ := by
  have hA : AuthRoute.signIn db verify (some e1) (some p1) =
      ⟨401, .err "Invalid email or password"⟩ := by
    unfold AuthRoute.signIn
    rw [if_neg (by simp [jsFalsy, he1, hp1])]
    simp [Option.getD_some, hfound, hbad]
  have hB : AuthRoute.signIn db verify (some e2) (some p2) =
      ⟨401, .err "Invalid email or password"⟩ := by
    unfold AuthRoute.signIn
    rw [if_neg (by simp [jsFalsy, he2, hp2])]
    simp only [Option.getD_some, hmiss]
  exact ⟨hA.trans hB.symm, hA⟩

/-- The store state used by the auth witnesses. -/
def dbAuth : DB := ⟨[⟨1, "red@example.com", "red", "HASHsecret", 5⟩], [], [], [], 1, 2⟩

/-- A concrete stand-in for bcrypt.compare used by witnesses. -/
def verifySuffix : String → String → Bool := fun p h => h == "HASH" ++ p

theorem signin_unknown_email_and_wrong_password_identical_witness :
    AuthRoute.signIn dbAuth verifySuffix (some "red@example.com") (some "wrong") =
      AuthRoute.signIn dbAuth verifySuffix (some "blue@example.com") (some "whatever") ∧
    AuthRoute.signIn dbAuth verifySuffix (some "red@example.com") (some "wrong") =
      ⟨401, .err "Invalid email or password"⟩ :=
  signin_unknown_email_and_wrong_password_identical dbAuth verifySuffix
    "red@example.com" "wrong" "blue@example.com" "whatever"
    ⟨1, "red@example.com", "red", "HASHsecret", 5⟩
    (by decide) (by decide) (by decide) (by decide) (by decide) (by decide) (by decide)

/-- C7: fetching or mutating a deck owned by a different user produces
exactly the response produced for a deck id that exists nowhere: the
same 404 status and the same body, and for the mutating routes the store
is left unchanged, so ownership failure is indistinguishable from
absence. -/
theorem foreign_deck_indistinguishable_from_absent (db : DB) (u d1 d2 : Int)
    (name : Option String) (cards : Option (List Int))
    (_hexists : ∃ x ∈ db.decks, x.id = d1)
    (hother : ∀ x ∈ db.decks, x.id = d1 → x.userId ≠ u)
    (habsent : ∀ x ∈ db.decks, x.id ≠ d2) :
    getDeckHttp db u d1 = getDeckHttp db u d2 ∧
    getDeckHttp db u d1 = ⟨404, .err "Deck not found"⟩ ∧
    updateDeckHttp db u d1 name cards = updateDeckHttp db u d2 name cards ∧
    updateDeckHttp db u d1 name cards = (db, ⟨404, .err "Deck not found"⟩) ∧
    deleteDeckHttp db u d1 = deleteDeckHttp db u d2 ∧
    deleteDeckHttp db u d1 = (db, ⟨404, .err "Deck not found"⟩) := by
  have h1 : DeckRepository.getDeckByIdAndUser db d1 u = none :=
    lookup_none_of_other db d1 u hother
  have h2 : DeckRepository.getDeckByIdAndUser db d2 u = none :=
    lookup_none_of_other db d2 u (fun x hx hxid _ => absurd hxid (habsent x hx))
  refine ⟨?_, getHttp_notFound db d1 u h1, ?_, updateHttp_notFound db d1 u name cards h1,
    ?_, deleteHttp_notFound db d1 u h1⟩
  · exact (getHttp_notFound db d1 u h1).trans (getHttp_notFound db d2 u h2).symm
  · exact (updateHttp_notFound db d1 u name cards h1).trans
      (updateHttp_notFound db d2 u name cards h2).symm
  · exact (deleteHttp_notFound db d1 u h1).trans (deleteHttp_notFound db d2 u h2).symm

/-- A store holding one deck of user 2 with cards 1 to 10, read by user 1. -/
def dbForeign : DB :=
  ⟨[], cardsTen, [⟨7, "Blue Deck", 2⟩],
   [⟨7, 1⟩, ⟨7, 2⟩, ⟨7, 3⟩, ⟨7, 4⟩, ⟨7, 5⟩, ⟨7, 6⟩, ⟨7, 7⟩, ⟨7, 8⟩, ⟨7, 9⟩, ⟨7, 10⟩], 8, 1⟩

theorem foreign_deck_indistinguishable_from_absent_witness :
    getDeckHttp dbForeign 1 7 = getDeckHttp dbForeign 1 99 ∧
    getDeckHttp dbForeign 1 7 = ⟨404, .err "Deck not found"⟩ ∧
    updateDeckHttp dbForeign 1 7 (some " ") (some [1, 2]) =
      updateDeckHttp dbForeign 1 99 (some " ") (some [1, 2]) ∧
    updateDeckHttp dbForeign 1 7 (some " ") (some [1, 2]) =
      (dbForeign, ⟨404, .err "Deck not found"⟩) ∧
    deleteDeckHttp dbForeign 1 7 = deleteDeckHttp dbForeign 1 99 ∧
    deleteDeckHttp dbForeign 1 7 = (dbForeign, ⟨404, .err "Deck not found"⟩) :=
  foreign_deck_indistinguishable_from_absent dbForeign 1 7 99 (some " ") (some [1, 2])
    ⟨⟨7, "Blue Deck", 2⟩, by decide, rfl⟩ (by decide) (by decide)

/-- C8: sign-up and sign-in responses carry exactly the public user
projection and never the password hash: the sign-up response is the same
function of the request whatever the hash function produced, every
successful response user object equals the id, email, username and
creation-timestamp projection of a stored user row, and that projection
is insensitive to the stored password hash. -/
theorem auth_responses_are_public_projection :
    (∀ (db : DB) (hash1 hash2 : String → String) (now : Nat) (e un pw : Option String),
      (AuthRoute.signUp db hash1 now e un pw).2 = (AuthRoute.signUp db hash2 now e un pw).2) ∧
    (∀ (db : DB) (hash : String → String) (now : Nat) (e un pw : Option String)
      (db2 : DB) (tok : Token) (pu : PublicUser),
      AuthRoute.signUp db hash now e un pw = (db2, ⟨201, .ok tok pu⟩) →
      ∃ u ∈ db2.users, pu = publicOf u) ∧
    (∀ (db : DB) (verify : String → String → Bool) (e pw : Option String)
      (st : Nat) (tok : Token) (pu : PublicUser),
      AuthRoute.signIn db verify e pw = ⟨st, .ok tok pu⟩ →
      st = 200 ∧ ∃ u ∈ db.users, pu = publicOf u) ∧
    (∀ (u : UserRow) (q : String), publicOf { u with password := q } = publicOf u) := by
  refine ⟨?_, ?_, ?_, fun u q => rfl⟩
  · intro db hash1 hash2 now e un pw
    unfold AuthRoute.signUp
    split
    · rfl
    · split <;> rfl
  · intro db hash now e un pw db2 tok pu h
    unfold AuthRoute.signUp at h
    split at h
    · have h400 : (400 : Nat) = 201 := congrArg (fun r => r.2.status) h
      exact absurd h400 (by decide)
    · split at h
      · have h409 : (409 : Nat) = 201 := congrArg (fun r => r.2.status) h
        exact absurd h409 (by decide)
      · injection h with hdb hresp
        injection hresp with hst hbody
        injection hbody with htok hpu
        refine ⟨⟨db.nextUserId, e.getD "", un.getD "", hash (pw.getD ""), now⟩, ?_, hpu.symm⟩
        rw [← hdb]
        simp
  · intro db verify e pw st tok pu h
    unfold AuthRoute.signIn at h
    split at h
    · injection h with hst hbody
      exact AuthBody.noConfusion hbody
    · split at h
      · injection h with hst hbody
        exact AuthBody.noConfusion hbody
      · rename_i u hfind
        split at h
        · injection h with hst hbody
          exact AuthBody.noConfusion hbody
        · injection h with hst hbody
          injection hbody with htok hpu
          exact ⟨hst.symm, u, List.mem_of_find?_eq_some hfind, hpu.symm⟩

theorem auth_responses_are_public_projection_witness :
    AuthRoute.signIn dbAuth verifySuffix (some "red@example.com") (some "secret") =
      ⟨200, .ok ⟨1, "red@example.com"⟩ ⟨1, "red@example.com", "red", 5⟩⟩ ∧
    (200 = 200 ∧ ∃ u ∈ dbAuth.users,
      (⟨1, "red@example.com", "red", 5⟩ : PublicUser) = publicOf u) :=
  ⟨by decide,
   auth_responses_are_public_projection.2.2.1 dbAuth verifySuffix
     (some "red@example.com") (some "secret") 200 ⟨1, "red@example.com"⟩
     ⟨1, "red@example.com", "red", 5⟩ (by decide)⟩

/-! ## parseInt facts for the deck id routes -/

/-- A decimal digit character (codes 48 to 57). -/
def decDigit (c : Char) : Bool := 48 ≤ c.toNat && c.toNat ≤ 57

theorem headIs_cons (x : Char) (l : List Char) (c : Char) :
    headIs (x :: l) c = (x == c) := rfl

theorem decDigit_not_ws (c : Char) (h : decDigit c = true) :
    Char.isWhitespace c = false := by
  simp only [decDigit, Bool.and_eq_true, decide_eq_true_eq] at h
  have hsp : c ≠ ' ' := fun h0 => by rw [h0] at h; revert h; decide
  have hta : c ≠ '\t' := fun h0 => by rw [h0] at h; revert h; decide
  have hcr : c ≠ '\r' := fun h0 => by rw [h0] at h; revert h; decide
  have hlf : c ≠ '\n' := fun h0 => by rw [h0] at h; revert h; decide
  simp [Char.isWhitespace, hsp, hta, hcr, hlf]

theorem decDigit_ne (c x : Char) (h : decDigit c = true) (hx : decDigit x = false) :
    (c == x) = false := by
  cases hcx : c == x with
  | false => rfl
  | true =>
    have : c = x := by simpa using hcx
    rw [this] at h
    rw [h] at hx
    exact Bool.noConfusion hx

theorem takeDigitsValSome (b : Nat) (l : List Char) (a : Nat) :
    (takeDigitsVal b l (some a)).isSome = true := by
  induction l generalizing a with
  | nil => rfl
  | cons c cs ih =>
    show (match jsDigitVal b c with
      | some d => takeDigitsVal b cs (some ((some a).getD 0 * b + d))
      | none => some a).isSome = true
    cases hj : jsDigitVal b c with
    | some d => simp only [hj]; exact ih _
    | none => simp only [hj, Option.isSome_some]

theorem jsDigitVal_ten (c : Char) (h : decDigit c = true) :
    jsDigitVal 10 c = some (c.toNat - 48) := by
  simp only [decDigit, Bool.and_eq_true, decide_eq_true_eq] at h
  have h3 : c.toNat - 48 < 10 := by omega
  simp [jsDigitVal, h.1, h.2, h3]

theorem takeDigitsVal_digit_head (c : Char) (cs : List Char) (h : decDigit c = true) :
    (takeDigitsVal 10 (c :: cs) none).isSome = true := by
  show (match jsDigitVal 10 c with
    | some d => takeDigitsVal 10 cs (some ((none : Option Nat).getD 0 * 10 + d))
    | none => none).isSome = true
  rw [jsDigitVal_ten c h]
  exact takeDigitsValSome 10 cs _

/-- On a string whose first character is a decimal digit and which does
not start with the hexadecimal 0x marker, jsParseInt returns exactly the
value of the longest leading run of decimal digits. -/
theorem jsParseInt_decimal (s : String) (c : Char) (cs : List Char)
    (hdata : s.data = c :: cs) (hdig : decDigit c = true)
    (hnohex : hexMark s.data = false) :
    jsParseInt s = (takeDigitsVal 10 s.data none).map (fun n => (n : Int)) := by
  have hw := decDigit_not_ws c hdig
  have hminus : (c == '-') = false := decDigit_ne c '-' hdig (by decide)
  have hplus : (c == '+') = false := decDigit_ne c '+' hdig (by decide)
  rw [hdata] at hnohex
  unfold jsParseInt
  rw [hdata]
  simp only [List.dropWhile_cons, hw, Bool.false_eq_true, if_false, headIs_cons,
    hminus, hplus, Bool.or_self, hnohex]
  cases hr : takeDigitsVal 10 (c :: cs) none with
  | none => simp
  | some n => simp

/-- A store holding a deck with id 16 owned by user 1, with cards 1 to 10. -/
def dbHex : DB :=
  ⟨[], cardsTen, [⟨16, "Hex", 1⟩],
   [⟨16, 1⟩, ⟨16, 2⟩, ⟨16, 3⟩, ⟨16, 4⟩, ⟨16, 5⟩, ⟨16, 6⟩, ⟨16, 7⟩, ⟨16, 8⟩,
    ⟨16, 9⟩, ⟨16, 10⟩], 17, 1⟩

/-- C9 counterexample: the id string 0x10 begins with the digit 0, so by
the claim it would be treated as the integer 0, yet parseInt reads it as
hexadecimal 16: the GET controller answers for deck 16 (200) while the id
string 0, the claimed equal treatment, answers 404. -/
theorem deck_id_parseInt_hex_counterexample :
    decDigit '0' = true ∧
    jsParseInt "0x10" = some 16 ∧
    DeckContoleur.getDeckById dbHex 1 "0x10" =
      ⟨200, .deck ⟨⟨16, "Hex", 1⟩, [1, 2, 3, 4, 5, 6, 7, 8, 9, 10]⟩⟩ ∧
    DeckContoleur.getDeckById dbHex 1 "0" = ⟨404, .err "Deck not found"⟩ := by decide

/-- C9 amended: the deck id path parameter is parsed with JS parseInt
semantics. When the parse yields no integer the three id routes answer
400 Invalid deck ID without consulting the store (the response does not
depend on the store state); when it yields an integer n the routes behave
exactly as the service called on n; and on an id string that starts with
a decimal digit and carries no 0x or 0X hexadecimal marker the parsed
integer is precisely the value of the longest leading run of decimal
digits, so a string such as 5abc is accepted and treated as 5. -/
theorem deck_id_parseInt_semantics :
    (∀ (db db2 : DB) (u : Int) (s : String) (name : Option String)
      (cards : Option (List Int)), jsParseInt s = none →
      DeckContoleur.getDeckById db u s = ⟨400, .err "Invalid deck ID"⟩ ∧
      DeckContoleur.updateDeck db u s name cards = (db, ⟨400, .err "Invalid deck ID"⟩) ∧
      DeckContoleur.deleteDeck db u s = (db, ⟨400, .err "Invalid deck ID"⟩) ∧
      DeckContoleur.getDeckById db u s = DeckContoleur.getDeckById db2 u s) ∧
    (∀ (db : DB) (u : Int) (s : String) (n : Int) (name : Option String)
      (cards : Option (List Int)), jsParseInt s = some n →
      DeckContoleur.getDeckById db u s = getDeckHttp db u n ∧
      DeckContoleur.updateDeck db u s name cards = updateDeckHttp db u n name cards ∧
      DeckContoleur.deleteDeck db u s = deleteDeckHttp db u n) ∧
    (∀ (s : String) (c : Char) (cs : List Char),
      s.data = c :: cs → decDigit c = true → hexMark s.data = false →
      jsParseInt s = (takeDigitsVal 10 s.data none).map (fun n => (n : Int)) ∧
      jsParseInt s ≠ none) := by
  refine ⟨?_, ?_, ?_⟩
  · intro db db2 u s name cards h
    unfold DeckContoleur.getDeckById DeckContoleur.updateDeck DeckContoleur.deleteDeck
    rw [h]
    exact ⟨rfl, rfl, rfl, rfl⟩
  · intro db u s n name cards h
    unfold DeckContoleur.getDeckById DeckContoleur.updateDeck DeckContoleur.deleteDeck
    rw [h]
    exact ⟨rfl, rfl, rfl⟩
  · intro s c cs hdata hdig hnohex
    refine ⟨jsParseInt_decimal s c cs hdata hdig hnohex, ?_⟩
    rw [jsParseInt_decimal s c cs hdata hdig hnohex, hdata]
    intro h0
    have hs := takeDigitsVal_digit_head c cs hdig
    cases hr : takeDigitsVal 10 (c :: cs) none with
    | none => rw [hr] at hs; exact Bool.noConfusion hs
    | some m => rw [hr] at h0; exact Option.noConfusion h0

theorem deck_id_parseInt_semantics_witness :
    jsParseInt "5abc" = some 5 ∧
    DeckContoleur.getDeckById dbHex 1 "5abc" = getDeckHttp dbHex 1 5 ∧
    jsParseInt "abc" = none ∧
    DeckContoleur.getDeckById dbHex 1 "abc" = ⟨400, .err "Invalid deck ID"⟩ ∧
    jsParseInt "12" = (takeDigitsVal 10 "12".data none).map (fun n => (n : Int)) :=
  ⟨by decide,
   (deck_id_parseInt_semantics.2.1 dbHex 1 "5abc" 5 none none (by decide)).1,
   by decide,
   (deck_id_parseInt_semantics.1 dbHex dbHex 1 "abc" none none (by decide)).1,
   (deck_id_parseInt_semantics.2.2 "12" '1' ['2'] (by decide) (by decide) (by decide)).1⟩

/-- C5: for a successful PATCH of an existing owned deck, supplying only
a name leaves the association rows of the deck unchanged (the same card
id list is reinserted), and supplying only a card list leaves the deck
name unchanged (the retained name is re-trimmed, which is the identity on
stored names, every stored name being trimmed). -/
theorem patch_frame_conditions (db : DB) (d u : Int) :
    (∀ (nm : String) (db2 : DB) (v : DeckView),
      DeckService.updateDeck db d u (some nm) none = (db2, .ok v) →
      (deckCardsOf db2 d).map (fun dc => dc.cardId) =
        (deckCardsOf db d).map (fun dc => dc.cardId)) ∧
    (∀ (ids : List Int) (db2 : DB) (v : DeckView) (ex : DeckView),
      DeckRepository.getDeckByIdAndUser db d u = some ex →
      jsTrim ex.deck.name = ex.deck.name →
      DeckService.updateDeck db d u none (some ids) = (db2, .ok v) →
      v.deck.name = ex.deck.name ∧
      ∀ x ∈ db2.decks, (x.id == d && x.userId == u) = true → x.name = ex.deck.name) := by
  constructor
  · intro nm db2 v h
    unfold DeckService.updateDeck at h
    split at h
    · exact Except.noConfusion (congrArg Prod.snd h)
    rename_i ex hlook
    obtain ⟨dd0, hfind0, hmk0⟩ := Option.map_eq_some'.mp hlook
    split at h
    · exact Except.noConfusion (congrArg Prod.snd h)
    rename_i hname
    replace h : DeckRepository.updateDeck db d u (jsTrim nm) ex.cardIds =
      (db2, Except.ok v) := h
    unfold DeckRepository.updateDeck at h
    split at h
    · exact Except.noConfusion (congrArg Prod.snd h)
    rename_i hlen
    split at h
    · exact Except.noConfusion (congrArg Prod.snd h)
    rename_i dd hfind
    injection h with hdb hok
    have hdd0 : dd0 = dd := by
      have h12 := hfind0.symm.trans hfind
      injection h12
    have hpred := List.find?_some hfind
    simp only [Bool.and_eq_true, beq_iff_eq] at hpred
    rw [← hdb]
    have hcards : ex.cardIds = (deckCardsOf db dd0.id).map (fun dc => dc.cardId) := by
      rw [← hmk0]; rfl
    show ((deckCardsOf
        { db with
          decks := db.decks.map
            (fun x => if x.id == d && x.userId == u then { x with name := jsTrim nm } else x),
          deckCards := db.deckCards.filter (fun dc => !(dc.deckId == d)) ++
            ex.cardIds.map (fun c => ⟨dd.id, c⟩) } d).map (fun dc => dc.cardId)) =
      (deckCardsOf db d).map (fun dc => dc.cardId)
    unfold deckCardsOf
    simp only [List.filter_append, List.filter_filter]
    have hold : db.deckCards.filter (fun a => a.deckId == d && !(a.deckId == d)) = [] := by
      rw [List.filter_eq_nil_iff]
      intro a _ hab
      cases hx : (a.deckId == d) with
      | false => rw [hx] at hab; exact Bool.noConfusion hab
      | true => rw [hx] at hab; exact Bool.noConfusion hab
    have hnew : (ex.cardIds.map (fun c => (⟨dd.id, c⟩ : DeckCardRow))).filter
        (fun dc => dc.deckId == d) = ex.cardIds.map (fun c => (⟨dd.id, c⟩ : DeckCardRow)) := by
      rw [List.filter_eq_self]
      intro a ha
      simp only [List.mem_map] at ha
      obtain ⟨c0, _, hc0⟩ := ha
      rw [← hc0]
      simp only [beq_iff_eq]
      exact hpred.1
    rw [hold, hnew, List.nil_append, List.map_map]
    have hcomp : ((fun dc => dc.cardId) ∘ fun c => (⟨dd.id, c⟩ : DeckCardRow)) =
      fun c => c := rfl
    rw [hcomp, List.map_id']
    rw [hcards, hdd0, hpred.1]
    rfl
  · intro ids db2 v ex hex htrim h
    unfold DeckService.updateDeck at h
    split at h
    · rename_i heq
      rw [hex] at heq
      exact Option.noConfusion heq
    rename_i ex1 heq
    have hex1 : ex1 = ex := by
      have h12 := heq.symm.trans hex
      injection h12
    subst hex1
    split at h
    · exact Except.noConfusion (congrArg Prod.snd h)
    rename_i hname
    replace h : (if ids.length ≠ 10 then (db, Except.error DeckError.exactlyTen)
      else if ids.dedup.length ≠ ids.length then (db, Except.error DeckError.duplicateIds)
      else if (DeckRepository.validateCardIds db ids).length ≠ ids.length then
        (db, Except.error DeckError.invalidIds)
      else DeckRepository.updateDeck db d u (jsTrim ex1.deck.name) ids) =
      (db2, Except.ok v) := h
    split at h
    · exact Except.noConfusion (congrArg Prod.snd h)
    rename_i hten
    split at h
    · exact Except.noConfusion (congrArg Prod.snd h)
    rename_i hdup
    split at h
    · exact Except.noConfusion (congrArg Prod.snd h)
    rename_i hval
    unfold DeckRepository.updateDeck at h
    split at h
    · exact Except.noConfusion (congrArg Prod.snd h)
    rename_i hlen
    split at h
    · exact Except.noConfusion (congrArg Prod.snd h)
    rename_i dd hfind
    injection h with hdb hok
    injection hok with hv
    constructor
    · rw [← hv]
      show jsTrim ex1.deck.name = ex1.deck.name
      exact htrim
    · intro x hx hpx
      rw [← hdb] at hx
      simp only [List.mem_map] at hx
      obtain ⟨y, hy, hxy⟩ := hx
      by_cases hpy : (y.id == d && y.userId == u) = true
      · rw [if_pos hpy] at hxy
        rw [← hxy]
        show jsTrim ex1.deck.name = ex1.deck.name
        exact htrim
      · rw [if_neg hpy] at hxy
        rw [← hxy] at hpx
        exact absurd hpx hpy

theorem patch_frame_conditions_witness :
    (deckCardsOf (DeckService.updateDeck dbOneDeck 1 1 (some "Renamed") none).1 1).map
        (fun dc => dc.cardId) =
      (deckCardsOf dbOneDeck 1).map (fun dc => dc.cardId) ∧
    (⟨⟨1, "Aggro", 1⟩, [10, 9, 8, 7, 6, 5, 4, 3, 2, 1]⟩ : DeckView).deck.name =
      (⟨⟨1, "Aggro", 1⟩, [1, 2, 3, 4, 5, 6, 7, 8, 9, 10]⟩ : DeckView).deck.name ∧
    ∀ x ∈ (DeckService.updateDeck dbOneDeck 1 1 none
        (some [10, 9, 8, 7, 6, 5, 4, 3, 2, 1])).1.decks,
      (x.id == (1 : Int) && x.userId == (1 : Int)) = true →
      x.name = (⟨⟨1, "Aggro", 1⟩, [1, 2, 3, 4, 5, 6, 7, 8, 9, 10]⟩ : DeckView).deck.name :=
  have hb := (patch_frame_conditions dbOneDeck 1 1).2
    [10, 9, 8, 7, 6, 5, 4, 3, 2, 1]
    (DeckService.updateDeck dbOneDeck 1 1 none (some [10, 9, 8, 7, 6, 5, 4, 3, 2, 1])).1
    ⟨⟨1, "Aggro", 1⟩, [10, 9, 8, 7, 6, 5, 4, 3, 2, 1]⟩
    ⟨⟨1, "Aggro", 1⟩, [1, 2, 3, 4, 5, 6, 7, 8, 9, 10]⟩
    (by decide) (by decide) (by decide)
  ⟨(patch_frame_conditions dbOneDeck 1 1).1 "Renamed"
     (DeckService.updateDeck dbOneDeck 1 1 (some "Renamed") none).1
     ⟨⟨1, "Renamed", 1⟩, [1, 2, 3, 4, 5, 6, 7, 8, 9, 10]⟩ (by decide),
   hb.1, hb.2⟩

